import Mathlib

/-!
# Matrix background: wave ripples, influence compositing and grid set-up

A shallow embedding of the canvas background of `src/main.js`
(`class Wave`, `setup`, the per-cell body of `render`, `createWavesAt`
and the pointer handlers of `initLetterBackground`).

Conventions of the embedding.

* A JavaScript number is an exact rational (`ℚ`); quantities that the
  source only ever produces as integers (colour channels, cell shades,
  grid dimensions) are `ℤ` or `ℕ`.
* `Math.sqrt` and `Math.pow` are library functions and enter as the
  parameters `sqrt` and `pow`; nothing is assumed about them.
* Every `Math.random()` draw is an explicit argument (the index it
  selects), and `Date.now()` is the argument `now`.
* An array is a `List`: `push` appends at the end, `shift` removes the
  head.  Memory and engine limits on array length are outside the model.
* The module-level `let` variables are the fields of `State`.
-/

namespace MatrixBackground

/-! ## Data model -/

/-- Colour record of the source, written there as an object with fields r, g and b. -/
structure RGB where
  r : ℤ
  g : ℤ
  b : ℤ
deriving DecidableEq, Repr

/-- The constant `MAX_WAVES` (line 29). -/
def MAX_WAVES : ℕ := 5

/-- The constant `WAVE_INTERVAL` in milliseconds (line 32). -/
def WAVE_INTERVAL : ℚ := 100

/-- The palette `colors` of the `Wave` constructor (lines 55-60):
blue, orange, yellow, neon pink. -/
def colors : List RGB :=
  [⟨0, 119, 255⟩, ⟨255, 122, 0⟩, ⟨255, 193, 7⟩, ⟨255, 20, 147⟩]

/-- The palette entry selected by `Math.floor(Math.random() * colors.length)`;
the draw lies in `[0, 1)`, so the index is one of 0, 1, 2, 3. -/
def pickColor (pick : Fin 4) : RGB :=
  colors.getD pick.val ⟨0, 119, 255⟩

/-- Fields of a `Wave` instance (lines 36-61). -/
structure Wave where
  x : ℚ
  y : ℚ
  radius : ℚ
  isSecondary : Bool
  delayFrames : ℚ
  currentDelay : ℚ
  maxRadius : ℚ
  speed : ℚ
  opacity : ℚ
  lineWidth : ℚ
  colorRGB : RGB
deriving DecidableEq, Repr

/-- The `Wave` constructor (lines 35-62); `pick` is the palette index drawn
by `Math.random()`. -/
def Wave.constructor (x y : ℚ) (isSecondary : Bool) (delayFrames : ℚ)
    (pick : Fin 4) : Wave :=
  { x := x
    y := y
    radius := 0
    isSecondary := isSecondary
    delayFrames := delayFrames
    currentDelay := delayFrames
    maxRadius := if isSecondary then 200 else 300
    speed := if isSecondary then 2 else 3
    opacity := 1
    lineWidth := 3
    colorRGB := pickColor pick }

/-- The method `Wave.update` (lines 64-75): the wave after the call and the
returned flag. -/
def Wave.update (w : Wave) : Wave × Bool :=
  if w.currentDelay > 0 then
    ({ w with currentDelay := w.currentDelay - 1 }, true)
  else
    let radius := w.radius + w.speed
    let opacity := 1 - radius / w.maxRadius
    ({ w with radius := radius, opacity := opacity, lineWidth := 3 * opacity },
      decide (radius < w.maxRadius))

/-- The record returned by `getColorInfluence`; `none` is the `null` colour. -/
structure WaveData where
  influence : ℚ
  color : Option RGB
deriving DecidableEq, Repr

/-- The local `waveThickness` of `getColorInfluence` (line 89). -/
def Wave.waveThickness (w : Wave) : ℚ :=
  if w.isSecondary then 30 else 40

/-- The local `dist` of `getColorInfluence` (lines 84-86). -/
def Wave.dist (sqrt : ℚ → ℚ) (w : Wave) (x y : ℚ) : ℚ :=
  let dx := x - w.x
  let dy := y - w.y
  sqrt (dx * dx + dy * dy)

/-- The method `Wave.getColorInfluence` (lines 78-99). -/
def Wave.getColorInfluence (sqrt : ℚ → ℚ) (w : Wave) (x y : ℚ) : WaveData :=
  if w.currentDelay > 0 then
    { influence := 0, color := none }
  else
    let distFromWave := |w.dist sqrt x y - w.radius|
    if distFromWave < w.waveThickness then
      { influence := (1 - distFromWave / w.waveThickness) * w.opacity,
        color := some w.colorRGB }
    else
      { influence := 0, color := none }

/-! ## Spawning waves -/

/-- The loop `while (waves.length > MAX_WAVES * 3) waves.shift()` of
`createWavesAt` (lines 370-372). -/
def shiftWhileOver : List Wave → List Wave
  | [] => []
  | w :: rest =>
    if (w :: rest).length > MAX_WAVES * 3 then shiftWhileOver rest else w :: rest

/-- The three `waves.push(new Wave(...))` statements of `createWavesAt`
(lines 363-367); `p0`, `p1`, `p2` are the three palette draws. -/
def pushGroup (waves : List Wave) (x y : ℚ) (p0 p1 p2 : Fin 4) : List Wave :=
  ((waves ++ [Wave.constructor x y false 0 p0])
      ++ [Wave.constructor x y true 10 p1])
      ++ [Wave.constructor x y true 20 p2]

/-- The helper `createWavesAt` (lines 361-373) as a function of the old
wave list. -/
def createWavesAt (waves : List Wave) (x y : ℚ) (p0 p1 p2 : Fin 4) : List Wave :=
  shiftWhileOver (pushGroup waves x y p0 p1 p2)

/-! ## Advancing waves -/

/-- The wave after `n` successive `update()` calls (return values ignored). -/
def Wave.updates (n : ℕ) (w : Wave) : Wave :=
  (fun v => (Wave.update v).1)^[n] w

/-- One wave under the callback of `waves.filter(wave => wave.update())`:
the updated wave when `update()` returned `true`, nothing otherwise. -/
def Wave.keep (w : Wave) : Option Wave :=
  if (Wave.update w).2 then some (Wave.update w).1 else none

/-- The statement `waves = waves.filter(wave => wave.update())` of `render`
(line 330). -/
def tickWaves (waves : List Wave) : List Wave :=
  waves.filterMap Wave.keep

/-- A wave followed through `n` frames of `tickWaves`: `none` once a frame
has filtered it out. -/
def Wave.aliveAfter : ℕ → Wave → Option Wave
  | 0, w => some w
  | n + 1, w => (Wave.aliveAfter n w).bind Wave.keep

/-! ## Grid, hover state and the module-level variables -/

/-- A grid letter: the objects stored in `matrixLetters` (lines 238-241). -/
structure Cell where
  ch : Char
  shade : ℤ
deriving DecidableEq, Repr

/-- The module-level variables used by the canvas background (lines 17-31)
together with `document.body.style.userSelect`. -/
structure State where
  matrixCols : ℕ
  matrixRows : ℕ
  matrixCellSize : ℚ
  matrixLetters : List Cell
  mousePosX : ℚ
  mousePosY : ℚ
  glowAlpha : ℚ
  hoverRadiusBase : ℚ
  hoverRadius : ℚ
  waves : List Wave
  isDragging : Bool
  lastWaveTime : ℚ
  userSelect : String
deriving DecidableEq, Repr

/-- The letter pool of `setup` (line 237). -/
def pool : List Char := ['C', 'C', 'B']

/-- The responsive cell size of `setup` (lines 227-229). -/
def cellSizeFor (width : ℕ) : ℕ :=
  if width < 480 then 18 else if width < 768 then 20 else 24

/-- The closure `setup` (lines 218-242) for a container of `width` by `height`
pixels (`clientWidth`, `clientHeight`: non-negative integers).  `draws i`
holds the two random indices of cell `i`: the position in `pool` and the
offset `Math.floor(Math.random() * 45)` added to 190.  The canvas sizing of
lines 222-224 touches only the drawing surface and is left out. -/
def setup (s : State) (width height : ℕ) (draws : ℕ → Fin 3 × Fin 45) : State :=
  let matrixCellSize : ℚ := (cellSizeFor width : ℚ)
  let matrixCols : ℕ := ⌈(width : ℚ) / matrixCellSize⌉₊
  let matrixRows : ℕ := ⌈(height : ℚ) / matrixCellSize⌉₊
  let hoverRadiusBase : ℚ := matrixCellSize * (27 / 5)
  { s with
    matrixCellSize := matrixCellSize
    matrixCols := matrixCols
    matrixRows := matrixRows
    hoverRadiusBase := hoverRadiusBase
    hoverRadius := hoverRadiusBase
    matrixLetters := (List.range (matrixRows * matrixCols)).map fun i =>
      { ch := pool.getD (draws i).1.val 'C'
        shade := 190 + ((draws i).2.val : ℤ) } }

/-! ## Compositing one cell (body of the double loop of `render`) -/

/-- The hover blend factor `f` (lines 274-284); the exponent 2.2 is `11/5`. -/
def hoverFactor (sqrt : ℚ → ℚ) (pow : ℚ → ℚ → ℚ) (s : State) (x y : ℚ) : ℚ :=
  let dx := s.mousePosX - x
  let dy := s.mousePosY - y
  let dist := sqrt (dx * dx + dy * dy)
  let radius := s.hoverRadius
  if radius > 0 then
    let d := min (dist / radius) 1
    pow (1 - d) (11 / 5)
  else 0

/-- One iteration of `for (const wave of waves)` (lines 290-294) on the pair
`(maxWaveInfluence, waveColor)`. -/
def strongestStep (sqrt : ℚ → ℚ) (x y : ℚ) (acc : ℚ × Option RGB) (wave : Wave) :
    ℚ × Option RGB :=
  let waveData := wave.getColorInfluence sqrt x y
  if waveData.influence > acc.1 then (waveData.influence, waveData.color) else acc

/-- The strongest-wave loop (lines 287-295): the final
`(maxWaveInfluence, waveColor)`, starting from `(0, null)`. -/
def strongestWave (sqrt : ℚ → ℚ) (waves : List Wave) (x y : ℚ) : ℚ × Option RGB :=
  waves.foldl (strongestStep sqrt x y) (0, none)

/-- The hover accent colour, orange (lines 310-312). -/
def hoverOrange : RGB := ⟨255, 122, 0⟩

/-- The dominance test (lines 299-313): `(finalInfluence, accent colour)`.
Reading `waveColor.r` of a `null` colour throws a `TypeError`, rendered as
`none`. -/
def dominant (maxWaveInfluence : ℚ) (waveColor : Option RGB) (hoverInfluence : ℚ) :
    Option (ℚ × RGB) :=
  if maxWaveInfluence > hoverInfluence then
    match waveColor with
    | some c => some (maxWaveInfluence, c)
    | none => none
  else
    some (hoverInfluence, hoverOrange)

/-- The function `Math.round`: nearest integer, halves towards plus infinity. -/
def mathRound (q : ℚ) : ℤ := ⌊q + 1 / 2⌋

/-- The four components written into `fillStyle` as `rgba(r, g, b, a)`. -/
structure FillStyle where
  r : ℤ
  g : ℤ
  b : ℤ
  a : ℚ
deriving DecidableEq, Repr

/-- The colour blend (lines 315-322); `aGrey` is 0.35, `aAccent` is 1.0. -/
def blend (shade : ℤ) (accent : RGB) (finalInfluence : ℚ) : FillStyle :=
  let g : ℚ := shade
  let aGrey : ℚ := 7 / 20
  let aAccent : ℚ := 1
  { r := mathRound (g + ((accent.r : ℚ) - g) * finalInfluence)
    g := mathRound (g + ((accent.g : ℚ) - g) * finalInfluence)
    b := mathRound (g + ((accent.b : ℚ) - g) * finalInfluence)
    a := aGrey + (aAccent - aGrey) * finalInfluence }

/-- The value `hoverInfluence` of a cell centred at `(x, y)` (line 298). -/
def hoverInfluence (sqrt : ℚ → ℚ) (pow : ℚ → ℚ → ℚ) (s : State) (x y : ℚ) : ℚ :=
  hoverFactor sqrt pow s x y * s.glowAlpha

/-- The pair `(finalInfluence, accent)` chosen for the cell centred at
`(x, y)` (lines 273-313). -/
def cellAccent (sqrt : ℚ → ℚ) (pow : ℚ → ℚ → ℚ) (s : State) (x y : ℚ) :
    Option (ℚ × RGB) :=
  dominant (strongestWave sqrt s.waves x y).1 (strongestWave sqrt s.waves x y).2
    (hoverInfluence sqrt pow s x y)

/-- The fill style painted for `cell` centred at `(x, y)` (lines 273-322). -/
def cellFillStyle (sqrt : ℚ → ℚ) (pow : ℚ → ℚ → ℚ) (s : State) (cell : Cell)
    (x y : ℚ) : Option FillStyle :=
  (cellAccent sqrt pow s x y).map fun p => blend cell.shade p.2 p.1

/-- The centre of the cell in column `col` (line 270); the same formula on
`row` gives `y` (line 271). -/
def cellCentre (s : State) (col : ℕ) : ℚ :=
  col * s.matrixCellSize + s.matrixCellSize / 2

/-! ## Pointer and touch handlers -/

/-- The result of `getBoundingClientRect()` on the container. -/
structure Rect where
  left : ℚ
  top : ℚ
  width : ℚ
  height : ℚ
deriving DecidableEq, Repr

/-- Client coordinates carried by a mouse event or by one touch point. -/
structure Pointer where
  clientX : ℚ
  clientY : ℚ
deriving DecidableEq, Repr

/-- The bounds test of the mouse handlers (lines 382 and 402) on
container-relative coordinates. -/
def withinBounds (rect : Rect) (px py : ℚ) : Bool :=
  decide (px ≥ 0 ∧ px ≤ rect.width ∧ py ≥ 0 ∧ py ≤ rect.height)

/-- The `mousedown` listener (lines 376-390). -/
def onMouseDown (s : State) (rect : Rect) (e : Pointer) (now : ℚ)
    (p0 p1 p2 : Fin 4) : State :=
  let clickX := e.clientX - rect.left
  let clickY := e.clientY - rect.top
  if withinBounds rect clickX clickY then
    { s with
      isDragging := true
      lastWaveTime := now
      waves := createWavesAt s.waves clickX clickY p0 p1 p2
      userSelect := "none" }
  else s

/-- The drag `mousemove` listener (lines 393-408). -/
def onMouseMoveDrag (s : State) (rect : Rect) (e : Pointer) (now : ℚ)
    (p0 p1 p2 : Fin 4) : State :=
  if s.isDragging then
    if now - s.lastWaveTime ≥ WAVE_INTERVAL then
      let dragX := e.clientX - rect.left
      let dragY := e.clientY - rect.top
      if withinBounds rect dragX dragY then
        { s with
          waves := createWavesAt s.waves dragX dragY p0 p1 p2
          lastWaveTime := now }
      else s
    else s
  else s

/-- The `touchstart` listener (lines 425-435); `touches` is `e.touches`. -/
def onTouchStart (s : State) (rect : Rect) (touches : List Pointer) (now : ℚ)
    (p0 p1 p2 : Fin 4) : State :=
  match touches with
  | t :: _ =>
    let touchX := t.clientX - rect.left
    let touchY := t.clientY - rect.top
    { s with
      isDragging := true
      lastWaveTime := now
      waves := createWavesAt s.waves touchX touchY p0 p1 p2 }
  | [] => s

/-- The drag `touchmove` listener (lines 437-449). -/
def onTouchMoveDrag (s : State) (rect : Rect) (touches : List Pointer) (now : ℚ)
    (p0 p1 p2 : Fin 4) : State :=
  match s.isDragging, touches with
  | true, t :: _ =>
    if now - s.lastWaveTime ≥ WAVE_INTERVAL then
      let touchX := t.clientX - rect.left
      let touchY := t.clientY - rect.top
      { s with
        waves := createWavesAt s.waves touchX touchY p0 p1 p2
        lastWaveTime := now }
    else s
  | _, _ => s

/-- The closure `updateMouse` (lines 342-348), called by the hover listeners
of `mousemove` and `touchmove`; the boost factor 1.2 is `6/5`. -/
def updateMouse (s : State) (rect : Rect) (clientX clientY : ℚ) : State :=
  { s with
    mousePosX := clientX - rect.left
    mousePosY := clientY - rect.top
    glowAlpha := 1
    hoverRadius := s.hoverRadiusBase * (6 / 5) }

/-- The first `mouseleave` listener (line 353): the pointer goes to the
far-away position. -/
def onMouseLeaveHover (s : State) : State :=
  { s with mousePosX := -9999, mousePosY := -9999 }

/-- The second `mouseleave` listener (lines 418-422). -/
def onMouseLeaveDrag (s : State) : State :=
  { s with isDragging := false, userSelect := "" }

/-- A `mouseleave` event on the window: both listeners, in the order in which
they were registered. -/
def onMouseLeave (s : State) : State :=
  onMouseLeaveDrag (onMouseLeaveHover s)

/-- The `mouseup` listener (lines 411-415). -/
def onMouseUp (s : State) : State :=
  { s with isDragging := false, userSelect := "" }

/-- The `touchend` listener (lines 451-453). -/
def onTouchEnd (s : State) : State :=
  { s with isDragging := false }

/-- The end of a `render` frame (lines 330-334): the waves are updated and
filtered, the hover radius eases towards its base (factor 0.08 is `2/25`)
and the glow fades (factor 0.96 is `24/25`). -/
def endOfFrame (s : State) : State :=
  { s with
    waves := tickWaves s.waves
    hoverRadius := s.hoverRadius + (s.hoverRadiusBase - s.hoverRadius) * (2 / 25)
    glowAlpha := s.glowAlpha * (24 / 25) }

/-! ## Initial values -/

/-- The module-level variables as initialised at load time (lines 17-31),
before the first `setup()`. -/
def initialState : State :=
  { matrixCols := 0
    matrixRows := 0
    matrixCellSize := 24
    matrixLetters := []
    mousePosX := -9999
    mousePosY := -9999
    glowAlpha := 0
    hoverRadiusBase := 60
    hoverRadius := 60
    waves := []
    isDragging := false
    lastWaveTime := 0
    userSelect := "" }

/-! ## Predicates used in the proofs -/

/-- The shape every wave built by the constructor keeps under `update`:
`maxRadius` and `speed` are those of its kind, `opacity` follows `radius`,
`radius` is non-negative, and it is still 0 while the delay runs. -/
def Wave.WellFormed (w : Wave) : Prop :=
  w.maxRadius = (if w.isSecondary then 200 else 300)
  ∧ w.speed = (if w.isSecondary then 2 else 3)
  ∧ w.opacity = 1 - w.radius / w.maxRadius
  ∧ 0 ≤ w.radius
  ∧ (0 < w.currentDelay → w.radius = 0)

/-- What the strongest-wave loop has established after running over `l`. -/
def StrongestSpec (sqrt : ℚ → ℚ) (l : List Wave) (x y : ℚ) (r : ℚ × Option RGB) : Prop :=
  0 ≤ r.1
  ∧ (∀ v ∈ l, (v.getColorInfluence sqrt x y).influence ≤ r.1)
  ∧ (r.1 = 0 → r.2 = none)
  ∧ (0 < r.1 → ∃ pre w post, l = pre ++ w :: post
      ∧ (∀ v ∈ pre, (v.getColorInfluence sqrt x y).influence < r.1)
      ∧ (w.getColorInfluence sqrt x y).influence = r.1
      ∧ r.2 = (w.getColorInfluence sqrt x y).color)

/-- Closed form of the wave built by `new Wave(x, y, isSecondary, delay)` after
`n` frames in which it was kept: the delay has dropped by `n` (not below 0)
and the radius has grown by `speed` in each of the `n - delay` frames after
the delay ran out. -/
def Wave.afterFrames (x y : ℚ) (isSecondary : Bool) (delay : ℕ) (pick : Fin 4)
    (n : ℕ) : Wave :=
  let maxRadius : ℚ := if isSecondary then 200 else 300
  let speed : ℚ := if isSecondary then 2 else 3
  let radius : ℚ := speed * ((n - delay : ℕ) : ℚ)
  { x := x
    y := y
    radius := radius
    isSecondary := isSecondary
    delayFrames := delay
    currentDelay := ((delay - n : ℕ) : ℚ)
    maxRadius := maxRadius
    speed := speed
    opacity := 1 - radius / maxRadius
    lineWidth := 3 * (1 - radius / maxRadius)
    colorRGB := pickColor pick }

/-! ## Lemmas on spawning -/

theorem shiftWhileOver_eq_drop (l : List Wave) :
    shiftWhileOver l = l.drop (l.length - MAX_WAVES * 3) := by
  induction l with
  | nil => simp [shiftWhileOver]
  | cons w rest ih =>
    unfold shiftWhileOver
    by_cases h : (w :: rest).length > MAX_WAVES * 3
    · rw [if_pos h, ih]
      have h1 : (w :: rest).length - MAX_WAVES * 3
          = (rest.length - MAX_WAVES * 3) + 1 := by
        simp only [List.length_cons] at h ⊢
        simp only [MAX_WAVES] at h ⊢
        omega
      rw [h1, List.drop_succ_cons]
    · rw [if_neg h]
      have h0 : (w :: rest).length - MAX_WAVES * 3 = 0 := by
        simp only [MAX_WAVES] at h ⊢
        omega
      rw [h0, List.drop_zero]

theorem pushGroup_eq (waves : List Wave) (x y : ℚ) (p0 p1 p2 : Fin 4) :
    pushGroup waves x y p0 p1 p2
      = waves ++ [Wave.constructor x y false 0 p0, Wave.constructor x y true 10 p1,
          Wave.constructor x y true 20 p2] := by
  simp [pushGroup]

/-! ## Lemmas on `update` -/

theorem Wave.updates_succ (n : ℕ) (w : Wave) :
    Wave.updates (n + 1) w = (Wave.update (Wave.updates n w)).1 := by
  unfold Wave.updates
  exact Function.iterate_succ_apply' _ n w

theorem Wave.update_of_delay (w : Wave) (h : 0 < w.currentDelay) :
    Wave.update w = ({ w with currentDelay := w.currentDelay - 1 }, true) := by
  unfold Wave.update
  rw [if_pos h]

theorem Wave.update_of_active (w : Wave) (h : ¬ 0 < w.currentDelay) :
    Wave.update w
      = ({ w with radius := w.radius + w.speed,
                  opacity := 1 - (w.radius + w.speed) / w.maxRadius,
                  lineWidth := 3 * (1 - (w.radius + w.speed) / w.maxRadius) },
          decide (w.radius + w.speed < w.maxRadius)) := by
  unfold Wave.update
  rw [if_neg h]

theorem Wave.speed_pos_of_wellFormed {w : Wave} (h : w.WellFormed) : 0 < w.speed := by
  obtain ⟨-, hs, -⟩ := h
  rw [hs]
  split <;> norm_num

theorem Wave.maxRadius_pos_of_wellFormed {w : Wave} (h : w.WellFormed) :
    0 < w.maxRadius := by
  obtain ⟨hm, -⟩ := h
  rw [hm]
  split <;> norm_num

theorem Wave.constructor_wellFormed (x y : ℚ) (isSecondary : Bool) (delayFrames : ℚ)
    (pick : Fin 4) : (Wave.constructor x y isSecondary delayFrames pick).WellFormed := by
  refine ⟨rfl, rfl, ?_, le_refl _, fun _ => rfl⟩
  simp [Wave.constructor]

theorem Wave.update_wellFormed {w : Wave} (h : w.WellFormed) :
    (Wave.update w).1.WellFormed := by
  have hs := Wave.speed_pos_of_wellFormed h
  obtain ⟨hm, hsp, ho, hr, hd⟩ := h
  by_cases hc : 0 < w.currentDelay
  · rw [Wave.update_of_delay w hc]
    exact ⟨hm, hsp, ho, hr, fun _ => hd hc⟩
  · rw [Wave.update_of_active w hc]
    refine ⟨hm, hsp, rfl, ?_, fun h0 => absurd h0 hc⟩
    show 0 ≤ w.radius + w.speed
    linarith

theorem Wave.updates_wellFormed (n : ℕ) {w : Wave} (h : w.WellFormed) :
    (Wave.updates n w).WellFormed := by
  induction n with
  | zero => exact h
  | succ k ih =>
    rw [Wave.updates_succ]
    exact Wave.update_wellFormed ih

/-! ## Lemmas on waves kept in the active list -/

theorem Wave.keep_eq_some {v w : Wave} (h : Wave.keep v = some w) :
    (Wave.update v).2 = true ∧ w = (Wave.update v).1 := by
  unfold Wave.keep at h
  by_cases hb : (Wave.update v).2 = true
  · rw [if_pos hb] at h
    exact ⟨hb, (Option.some.inj h).symm⟩
  · rw [if_neg hb] at h
    exact absurd h (by simp)

theorem Wave.keep_preserves {v w : Wave} (hv : v.WellFormed)
    (hlt : v.radius < v.maxRadius) (h : Wave.keep v = some w) :
    w.WellFormed ∧ w.radius < w.maxRadius := by
  obtain ⟨hb, rfl⟩ := Wave.keep_eq_some h
  refine ⟨Wave.update_wellFormed hv, ?_⟩
  by_cases hc : 0 < v.currentDelay
  · rw [Wave.update_of_delay v hc]
    exact hlt
  · rw [Wave.update_of_active v hc] at hb ⊢
    exact of_decide_eq_true hb

theorem Wave.aliveAfter_preserves (n : ℕ) {w0 w : Wave} (h0 : w0.WellFormed)
    (hlt : w0.radius < w0.maxRadius) (h : Wave.aliveAfter n w0 = some w) :
    w.WellFormed ∧ w.radius < w.maxRadius := by
  induction n generalizing w with
  | zero =>
    have hw : w0 = w := Option.some.inj h
    subst hw
    exact ⟨h0, hlt⟩
  | succ k ih =>
    unfold Wave.aliveAfter at h
    obtain ⟨v, hv, hk⟩ := Option.bind_eq_some.mp h
    obtain ⟨hvw, hvlt⟩ := ih hv
    exact Wave.keep_preserves hvw hvlt hk

theorem Wave.waveThickness_pos (w : Wave) : 0 < w.waveThickness := by
  unfold Wave.waveThickness
  split <;> norm_num

theorem Wave.influence_bounds (sqrt : ℚ → ℚ) {w : Wave} (hw : w.WellFormed)
    (hlt : w.radius < w.maxRadius) (x y : ℚ) :
    0 ≤ (w.getColorInfluence sqrt x y).influence
    ∧ (w.getColorInfluence sqrt x y).influence ≤ 1 := by
  have hmax := Wave.maxRadius_pos_of_wellFormed hw
  obtain ⟨-, -, ho, hr, -⟩ := hw
  have hq0 : 0 ≤ w.radius / w.maxRadius := div_nonneg hr (le_of_lt hmax)
  have hq1 : w.radius / w.maxRadius < 1 := (div_lt_one hmax).mpr hlt
  have hop0 : 0 ≤ w.opacity := by rw [ho]; linarith
  have hop1 : w.opacity ≤ 1 := by rw [ho]; linarith
  unfold Wave.getColorInfluence
  by_cases hc : 0 < w.currentDelay
  · rw [if_pos hc]
    exact ⟨le_refl _, zero_le_one⟩
  · rw [if_neg hc]
    by_cases hb : |w.dist sqrt x y - w.radius| < w.waveThickness
    · simp only [hb, if_true]
      have ht := Wave.waveThickness_pos w
      have hd0 : 0 ≤ |w.dist sqrt x y - w.radius| / w.waveThickness :=
        div_nonneg (abs_nonneg _) (le_of_lt ht)
      have hd1 : |w.dist sqrt x y - w.radius| / w.waveThickness < 1 :=
        (div_lt_one ht).mpr hb
      constructor
      · exact mul_nonneg (by linarith) hop0
      · calc (1 - |w.dist sqrt x y - w.radius| / w.waveThickness) * w.opacity
            ≤ 1 * 1 := mul_le_mul (by linarith) hop1 hop0 zero_le_one
          _ = 1 := one_mul 1
    · simp only [hb, if_false]
      exact ⟨le_refl _, zero_le_one⟩

/-! ## Lemmas on compositing -/

theorem strongestWave_append (sqrt : ℚ → ℚ) (l : List Wave) (u : Wave) (x y : ℚ) :
    strongestWave sqrt (l ++ [u]) x y
      = strongestStep sqrt x y (strongestWave sqrt l x y) u := by
  simp [strongestWave, List.foldl_append]

theorem Wave.color_of_influence_pos (sqrt : ℚ → ℚ) (w : Wave) (x y : ℚ)
    (h : 0 < (w.getColorInfluence sqrt x y).influence) :
    (w.getColorInfluence sqrt x y).color = some w.colorRGB := by
  unfold Wave.getColorInfluence at h ⊢
  split
  · rename_i hc
    rw [if_pos hc] at h
    exact absurd h (lt_irrefl _)
  · rename_i hc
    rw [if_neg hc] at h
    by_cases hb : |w.dist sqrt x y - w.radius| < w.waveThickness
    · simp only [hb, if_true]
    · simp only [hb, if_false] at h
      exact absurd h (lt_irrefl _)

theorem strongestWave_spec (sqrt : ℚ → ℚ) (l : List Wave) (x y : ℚ) :
    StrongestSpec sqrt l x y (strongestWave sqrt l x y) := by
  induction l using List.reverseRecOn with
  | nil =>
    refine ⟨le_refl _, ?_, fun _ => rfl, ?_⟩
    · intro v hv
      exact absurd hv (List.not_mem_nil v)
    · intro h
      exact absurd h (lt_irrefl _)
  | append_singleton l u ih =>
    rw [strongestWave_append]
    obtain ⟨h0, hle, hnone, hfirst⟩ := ih
    unfold strongestStep
    by_cases hgt : (u.getColorInfluence sqrt x y).influence > (strongestWave sqrt l x y).1
    · simp only [hgt, if_true]
      refine ⟨le_of_lt (lt_of_le_of_lt h0 hgt), ?_, ?_, ?_⟩
      · intro v hv
        rcases List.mem_append.mp hv with hv | hv
        · exact le_of_lt (lt_of_le_of_lt (hle v hv) hgt)
        · rw [List.mem_singleton.mp hv]
      · intro hz
        exact absurd hz (ne_of_gt (lt_of_le_of_lt h0 hgt))
      · intro _
        exact ⟨l, u, [], rfl, fun v hv => lt_of_le_of_lt (hle v hv) hgt, rfl, rfl⟩
    · simp only [hgt, if_false]
      refine ⟨h0, ?_, hnone, ?_⟩
      · intro v hv
        rcases List.mem_append.mp hv with hv | hv
        · exact hle v hv
        · rw [List.mem_singleton.mp hv]
          exact not_lt.mp hgt
      · intro hpos
        obtain ⟨pre, w, post, hl, hpre, hw, hc⟩ := hfirst hpos
        refine ⟨pre, w, post ++ [u], ?_, hpre, hw, hc⟩
        rw [hl]
        simp

theorem floor_intCast_add_half (z : ℤ) : ⌊(z : ℚ) + 1 / 2⌋ = z := by
  rw [Int.floor_eq_iff]
  constructor <;> norm_num

/-! ## Lemmas on a spawned group over the frames -/

theorem Wave.afterFrames_zero (x y : ℚ) (isSecondary : Bool) (delay : ℕ) (pick : Fin 4) :
    Wave.afterFrames x y isSecondary delay pick 0
      = Wave.constructor x y isSecondary delay pick := by
  simp [Wave.afterFrames, Wave.constructor]

theorem Wave.keep_afterFrames (x y : ℚ) (isSecondary : Bool) (delay : ℕ) (pick : Fin 4)
    (n : ℕ)
    (h : (if isSecondary then (2 : ℚ) else 3) * ((n + 1 - delay : ℕ) : ℚ)
          < (if isSecondary then (200 : ℚ) else 300)) :
    Wave.keep (Wave.afterFrames x y isSecondary delay pick n)
      = some (Wave.afterFrames x y isSecondary delay pick (n + 1)) := by
  by_cases hn : n < delay
  · have h1 : n - delay = 0 := by omega
    have h2 : n + 1 - delay = 0 := by omega
    have h3 : ((delay - n : ℕ) : ℚ) = ((delay - (n + 1) : ℕ) : ℚ) + 1 := by
      have : delay - n = (delay - (n + 1)) + 1 := by omega
      rw [this]
      push_cast
      rfl
    have hpos : 0 < (Wave.afterFrames x y isSecondary delay pick n).currentDelay := by
      show (0 : ℚ) < ((delay - n : ℕ) : ℚ)
      rw [h3]
      positivity
    unfold Wave.keep
    rw [Wave.update_of_delay _ hpos]
    simp only [if_true]
    congr 1
    simp only [Wave.afterFrames, h1, h2, h3]
    simp
  · have h1 : delay - n = 0 := by omega
    have h2 : delay - (n + 1) = 0 := by omega
    have h3 : ((n + 1 - delay : ℕ) : ℚ) = ((n - delay : ℕ) : ℚ) + 1 := by
      have : n + 1 - delay = (n - delay) + 1 := by omega
      rw [this]
      push_cast
      rfl
    have hnot : ¬ 0 < (Wave.afterFrames x y isSecondary delay pick n).currentDelay := by
      show ¬ (0 : ℚ) < ((delay - n : ℕ) : ℚ)
      rw [h1]
      simp
    have hflag : (Wave.afterFrames x y isSecondary delay pick n).radius
        + (Wave.afterFrames x y isSecondary delay pick n).speed
        < (Wave.afterFrames x y isSecondary delay pick n).maxRadius := by
      show (if isSecondary then (2 : ℚ) else 3) * ((n - delay : ℕ) : ℚ)
          + (if isSecondary then (2 : ℚ) else 3) < (if isSecondary then (200 : ℚ) else 300)
      rw [h3] at h
      linarith
    unfold Wave.keep
    rw [Wave.update_of_active _ hnot]
    simp only [hflag, decide_True, if_true]
    congr 1
    simp only [Wave.afterFrames, h1, h2, h3]
    simp [mul_add]

theorem createWavesAt_nil (x y : ℚ) (p0 p1 p2 : Fin 4) :
    createWavesAt [] x y p0 p1 p2
      = [Wave.constructor x y false 0 p0, Wave.constructor x y true 10 p1,
          Wave.constructor x y true 20 p2] := by
  simp [createWavesAt, pushGroup, shiftWhileOver, MAX_WAVES]

theorem tickWaves_group (x y : ℚ) (p0 p1 p2 : Fin 4) (n : ℕ) (hn : n < 100) :
    tickWaves^[n] (createWavesAt [] x y p0 p1 p2)
      = [Wave.afterFrames x y false 0 p0 n, Wave.afterFrames x y true 10 p1 n,
          Wave.afterFrames x y true 20 p2 n] := by
  induction n with
  | zero =>
    rw [Function.iterate_zero, id_eq, createWavesAt_nil, Wave.afterFrames_zero,
      Wave.afterFrames_zero, Wave.afterFrames_zero]
    simp
  | succ k ih =>
    rw [Function.iterate_succ_apply', ih (by omega)]
    have hp : Wave.keep (Wave.afterFrames x y false 0 p0 k)
        = some (Wave.afterFrames x y false 0 p0 (k + 1)) := by
      apply Wave.keep_afterFrames
      have hk : ((k + 1 - 0 : ℕ) : ℚ) < 100 := by
        have : k + 1 - 0 < 100 := by omega
        exact_mod_cast this
      simp only [Bool.false_eq_true, if_false]
      linarith
    have hs1 : Wave.keep (Wave.afterFrames x y true 10 p1 k)
        = some (Wave.afterFrames x y true 10 p1 (k + 1)) := by
      apply Wave.keep_afterFrames
      have hk : ((k + 1 - 10 : ℕ) : ℚ) < 100 := by
        have : k + 1 - 10 < 100 := by omega
        exact_mod_cast this
      simp only [if_true]
      linarith
    have hs2 : Wave.keep (Wave.afterFrames x y true 20 p2 k)
        = some (Wave.afterFrames x y true 20 p2 (k + 1)) := by
      apply Wave.keep_afterFrames
      have hk : ((k + 1 - 20 : ℕ) : ℚ) < 100 := by
        have : k + 1 - 20 < 100 := by omega
        exact_mod_cast this
      simp only [if_true]
      linarith
    simp [tickWaves, List.filterMap_cons, hp, hs1, hs2]

/-! ## Lemmas on the hover state -/

theorem hoverFactor_nonneg (sqrt : ℚ → ℚ) (pow : ℚ → ℚ → ℚ)
    (hpow : ∀ b : ℚ, 0 ≤ b → 0 ≤ pow b (11 / 5)) (s : State) (x y : ℚ) :
    0 ≤ hoverFactor sqrt pow s x y := by
  unfold hoverFactor
  by_cases hr : s.hoverRadius > 0
  · simp only [hr, if_true]
    apply hpow
    have := min_le_right
      (sqrt ((s.mousePosX - x) * (s.mousePosX - x) + (s.mousePosY - y) * (s.mousePosY - y))
        / s.hoverRadius) (1 : ℚ)
    linarith
  · simp only [hr, if_false]
    exact le_refl _

theorem hoverInfluence_nonneg (sqrt : ℚ → ℚ) (pow : ℚ → ℚ → ℚ)
    (hpow : ∀ b : ℚ, 0 ≤ b → 0 ≤ pow b (11 / 5)) (s : State) (hg : 0 ≤ s.glowAlpha)
    (x y : ℚ) : 0 ≤ hoverInfluence sqrt pow s x y :=
  mul_nonneg (hoverFactor_nonneg sqrt pow hpow s x y) hg

theorem glowAlpha_endOfFrame (s : State) (h : 0 ≤ s.glowAlpha ∧ s.glowAlpha ≤ 1) :
    0 ≤ (endOfFrame s).glowAlpha ∧ (endOfFrame s).glowAlpha ≤ 1 := by
  obtain ⟨h0, h1⟩ := h
  show 0 ≤ s.glowAlpha * (24 / 25) ∧ s.glowAlpha * (24 / 25) ≤ 1
  constructor <;> linarith

theorem glowAlpha_updateMouse (s : State) (rect : Rect) (cx cy : ℚ) :
    (updateMouse s rect cx cy).glowAlpha = 1 := rfl

/-! ## Theorems -/

/-- C1: after `createWavesAt(x, y)` the wave list has at most 15
(`MAX_WAVES * 3`) elements, and it is the old list followed by the three new
waves with exactly `oldLength + 3 - 15` (truncated at 0) elements removed from
the front, the order of the survivors unchanged. -/
theorem createWavesAt_cap_and_front_eviction (waves : List Wave) (x y : ℚ)
    (p0 p1 p2 : Fin 4) :
    (createWavesAt waves x y p0 p1 p2).length ≤ 15
    ∧ MAX_WAVES * 3 = 15
    ∧ createWavesAt waves x y p0 p1 p2
        = (waves ++ [Wave.constructor x y false 0 p0, Wave.constructor x y true 10 p1,
            Wave.constructor x y true 20 p2]).drop
              (max 0 ((waves.length : ℤ) + 3 - 15)).toNat := by
  have hd : createWavesAt waves x y p0 p1 p2
      = (waves ++ [Wave.constructor x y false 0 p0, Wave.constructor x y true 10 p1,
          Wave.constructor x y true 20 p2]).drop (waves.length + 3 - 15) := by
    unfold createWavesAt
    rw [shiftWhileOver_eq_drop, pushGroup_eq]
    simp [MAX_WAVES]
  refine ⟨?_, rfl, ?_⟩
  · rw [hd]
    simp only [List.length_drop, List.length_append, List.length_cons, List.length_nil]
    omega
  · rw [hd]
    congr 1
    omega

/-- C2: `createWavesAt(x, y)` appends exactly three waves centred at `(x, y)`,
in the order primary (not secondary, delay 0, maxRadius 300, speed 3),
secondary with delay 10, secondary with delay 20 (both maxRadius 200,
speed 2), each with radius 0 and opacity 1; after the call they are the last
three elements of the list, behind the surviving old waves. -/
theorem createWavesAt_appends_group (waves : List Wave) (x y : ℚ)
    (p0 p1 p2 : Fin 4) :
    (pushGroup waves x y p0 p1 p2).length = waves.length + 3
    ∧ createWavesAt waves x y p0 p1 p2
      = waves.drop (waves.length + 3 - 15) ++
        [ { x := x, y := y, radius := 0, isSecondary := false, delayFrames := 0,
            currentDelay := 0, maxRadius := 300, speed := 3, opacity := 1,
            lineWidth := 3, colorRGB := pickColor p0 },
          { x := x, y := y, radius := 0, isSecondary := true, delayFrames := 10,
            currentDelay := 10, maxRadius := 200, speed := 2, opacity := 1,
            lineWidth := 3, colorRGB := pickColor p1 },
          { x := x, y := y, radius := 0, isSecondary := true, delayFrames := 20,
            currentDelay := 20, maxRadius := 200, speed := 2, opacity := 1,
            lineWidth := 3, colorRGB := pickColor p2 } ] := by
  constructor
  · simp [pushGroup]
  · unfold createWavesAt
    rw [shiftWhileOver_eq_drop, pushGroup_eq, List.drop_append_of_le_length]
    · simp [MAX_WAVES, Wave.constructor]
    · simp only [List.length_append, List.length_cons, List.length_nil, MAX_WAVES]
      omega

/-- C3: for a wave built by the constructor and then updated any number `n`
of times, the next `update()` call behaves as follows.  While
`currentDelay > 0` it only decrements `currentDelay` by one, keeps `radius`
and `opacity` and returns `true`.  Once `currentDelay` is 0 (or below) it adds
`speed` to `radius`, sets `opacity = 1 - radius / maxRadius` and returns `true`
exactly when the new radius is below `maxRadius`.  In both cases the radius
does not decrease, and the call returns `false` exactly when the radius after
the call is at least `maxRadius`. -/
theorem update_contract (x y : ℚ) (isSecondary : Bool) (delayFrames : ℚ)
    (pick : Fin 4) (n : ℕ) :
    (0 < (Wave.updates n (Wave.constructor x y isSecondary delayFrames pick)).currentDelay →
      (Wave.updates (n + 1) (Wave.constructor x y isSecondary delayFrames pick)).currentDelay
          = (Wave.updates n (Wave.constructor x y isSecondary delayFrames pick)).currentDelay - 1
      ∧ (Wave.updates (n + 1) (Wave.constructor x y isSecondary delayFrames pick)).radius
          = (Wave.updates n (Wave.constructor x y isSecondary delayFrames pick)).radius
      ∧ (Wave.updates (n + 1) (Wave.constructor x y isSecondary delayFrames pick)).opacity
          = (Wave.updates n (Wave.constructor x y isSecondary delayFrames pick)).opacity
      ∧ (Wave.update
          (Wave.updates n (Wave.constructor x y isSecondary delayFrames pick))).2 = true)
    ∧ ((Wave.updates n (Wave.constructor x y isSecondary delayFrames pick)).currentDelay ≤ 0 →
      (Wave.updates (n + 1) (Wave.constructor x y isSecondary delayFrames pick)).radius
          = (Wave.updates n (Wave.constructor x y isSecondary delayFrames pick)).radius
            + (Wave.updates n (Wave.constructor x y isSecondary delayFrames pick)).speed
      ∧ (Wave.updates (n + 1) (Wave.constructor x y isSecondary delayFrames pick)).opacity
          = 1 - (Wave.updates (n + 1) (Wave.constructor x y isSecondary delayFrames pick)).radius
              / (Wave.updates (n + 1)
                  (Wave.constructor x y isSecondary delayFrames pick)).maxRadius
      ∧ ((Wave.update
            (Wave.updates n (Wave.constructor x y isSecondary delayFrames pick))).2 = true
          ↔ (Wave.updates (n + 1) (Wave.constructor x y isSecondary delayFrames pick)).radius
            < (Wave.updates (n + 1)
                (Wave.constructor x y isSecondary delayFrames pick)).maxRadius))
    ∧ (Wave.updates n (Wave.constructor x y isSecondary delayFrames pick)).radius
        ≤ (Wave.updates (n + 1) (Wave.constructor x y isSecondary delayFrames pick)).radius
    ∧ ((Wave.update
          (Wave.updates n (Wave.constructor x y isSecondary delayFrames pick))).2 = false
        ↔ (Wave.updates (n + 1)
              (Wave.constructor x y isSecondary delayFrames pick)).maxRadius
            ≤ (Wave.updates (n + 1)
                (Wave.constructor x y isSecondary delayFrames pick)).radius) := by
  have hw := Wave.updates_wellFormed n
    (Wave.constructor_wellFormed x y isSecondary delayFrames pick)
  rw [Wave.updates_succ]
  generalize Wave.updates n (Wave.constructor x y isSecondary delayFrames pick) = w at hw ⊢
  have hs := Wave.speed_pos_of_wellFormed hw
  have hmax := Wave.maxRadius_pos_of_wellFormed hw
  obtain ⟨-, -, -, hr, hd⟩ := hw
  by_cases hc : 0 < w.currentDelay
  · rw [Wave.update_of_delay w hc]
    refine ⟨fun _ => ⟨rfl, rfl, rfl, rfl⟩, fun h0 => absurd hc (not_lt.mpr h0), le_refl _, ?_⟩
    simp only [Bool.true_eq_false, false_iff, not_le]
    rw [hd hc]
    exact hmax
  · rw [Wave.update_of_active w hc]
    refine ⟨fun h0 => absurd h0 hc, fun _ => ⟨rfl, rfl, ?_⟩, ?_, ?_⟩
    · simp
    · show w.radius ≤ w.radius + w.speed
      linarith
    · simp

/-- C4: `getColorInfluence(x, y)` returns influence 0 and the `null` colour
whenever `currentDelay > 0`, and also whenever the distance of `(x, y)` from
the ring, `|dist - radius|`, is at least the band width, which is 30 for a
secondary wave and 40 for a primary one. -/
theorem getColorInfluence_zero_cases (sqrt : ℚ → ℚ) (w : Wave) (x y : ℚ) :
    (0 < w.currentDelay →
      w.getColorInfluence sqrt x y = { influence := 0, color := none })
    ∧ ((if w.isSecondary then (30 : ℚ) else 40)
          ≤ |sqrt ((x - w.x) * (x - w.x) + (y - w.y) * (y - w.y)) - w.radius| →
      w.getColorInfluence sqrt x y = { influence := 0, color := none }) := by
  constructor
  · intro h
    unfold Wave.getColorInfluence
    rw [if_pos h]
  · intro h
    unfold Wave.getColorInfluence
    split
    · rfl
    · have hn : ¬ |w.dist sqrt x y - w.radius| < w.waveThickness := not_lt.mpr h
      simp only [hn, if_false]

/-- Witness for C4: a secondary wave still in its delay gives influence 0 at its
own centre, and a fresh primary wave (radius 0, band 40) gives influence 0 at
(130, 140), which lies at distance 50 from its centre (100, 100). -/
theorem getColorInfluence_zero_cases_witness :
    Wave.getColorInfluence Rat.sqrt (Wave.constructor 100 100 true 10 0) 100 100
      = { influence := 0, color := none }
    ∧ Wave.getColorInfluence Rat.sqrt (Wave.constructor 100 100 false 0 0) 130 140
      = { influence := 0, color := none } :=
  ⟨(getColorInfluence_zero_cases Rat.sqrt (Wave.constructor 100 100 true 10 0) 100 100).1
      (by norm_num [Wave.constructor]),
   (getColorInfluence_zero_cases Rat.sqrt (Wave.constructor 100 100 false 0 0) 130 140).2
      (by norm_num [Wave.constructor])⟩

/-- C5: a wave built by the constructor that is still in the active list
after `n` frames (each frame called `update()` once and kept it because the
call returned `true`) satisfies `opacity = 1 - radius / maxRadius` with
`0 ≤ radius < maxRadius`, and at every point `(x, y)` the influence returned
by `getColorInfluence` lies in `[0, 1]`. -/
theorem live_wave_influence_in_unit_interval (sqrt : ℚ → ℚ) (cx cy : ℚ)
    (isSecondary : Bool) (delayFrames : ℚ) (pick : Fin 4) (n : ℕ) (w : Wave)
    (h : Wave.aliveAfter n (Wave.constructor cx cy isSecondary delayFrames pick) = some w)
    (x y : ℚ) :
    w.opacity = 1 - w.radius / w.maxRadius
    ∧ 0 ≤ w.radius ∧ w.radius < w.maxRadius
    ∧ 0 ≤ (w.getColorInfluence sqrt x y).influence
    ∧ (w.getColorInfluence sqrt x y).influence ≤ 1 := by
  have h0 := Wave.constructor_wellFormed cx cy isSecondary delayFrames pick
  have hlt0 : (Wave.constructor cx cy isSecondary delayFrames pick).radius
      < (Wave.constructor cx cy isSecondary delayFrames pick).maxRadius :=
    Wave.maxRadius_pos_of_wellFormed h0
  obtain ⟨hw, hlt⟩ := Wave.aliveAfter_preserves n h0 hlt0 h
  have hb := Wave.influence_bounds sqrt hw hlt x y
  exact ⟨hw.2.2.1, hw.2.2.2.1, hlt, hb.1, hb.2⟩

/-- Witness for C5: the primary wave spawned at (100, 100) is still in the list
after one frame, with radius 3, and its influence at (103, 104), at distance 5
from the centre, lies in `[0, 1]`. -/
theorem live_wave_influence_in_unit_interval_witness :
    Wave.aliveAfter 1 (Wave.constructor 100 100 false 0 0)
      = some { x := 100, y := 100, radius := 3, isSecondary := false, delayFrames := 0,
               currentDelay := 0, maxRadius := 300, speed := 3, opacity := 99 / 100,
               lineWidth := 297 / 100, colorRGB := ⟨0, 119, 255⟩ }
    ∧ 0 ≤ (Wave.getColorInfluence Rat.sqrt
            { x := 100, y := 100, radius := 3, isSecondary := false, delayFrames := 0,
              currentDelay := 0, maxRadius := 300, speed := 3, opacity := 99 / 100,
              lineWidth := 297 / 100, colorRGB := ⟨0, 119, 255⟩ } 103 104).influence
    ∧ (Wave.getColorInfluence Rat.sqrt
            { x := 100, y := 100, radius := 3, isSecondary := false, delayFrames := 0,
              currentDelay := 0, maxRadius := 300, speed := 3, opacity := 99 / 100,
              lineWidth := 297 / 100, colorRGB := ⟨0, 119, 255⟩ } 103 104).influence ≤ 1 := by
  have h : Wave.aliveAfter 1 (Wave.constructor 100 100 false 0 0)
      = some { x := 100, y := 100, radius := 3, isSecondary := false, delayFrames := 0,
               currentDelay := 0, maxRadius := 300, speed := 3, opacity := 99 / 100,
               lineWidth := 297 / 100, colorRGB := ⟨0, 119, 255⟩ } := by
    simp [Wave.aliveAfter, Wave.keep, Wave.update, Wave.constructor, pickColor, colors]
    norm_num
  have t := live_wave_influence_in_unit_interval Rat.sqrt 100 100 false 0 0 1 _ h 103 104
  exact ⟨h, t.2.2.2.1, t.2.2.2.2⟩

/-- C6: for every cell position `(x, y)` and every wave list, the loop's
`maxWaveInfluence` is the maximum of 0 and the influences of all waves: it is
at least 0 and at least every influence, and it is 0 or the influence of some
wave.  When it is positive, `waveColor` is the colour returned by the first
wave in list order whose influence equals it, which is that wave's
`colorRGB`; waves after it, also with an equal influence, do not replace it. -/
theorem strongestWave_is_first_maximum (sqrt : ℚ → ℚ) (waves : List Wave) (x y : ℚ) :
    (strongestWave sqrt waves x y).1
        = (waves.map fun v => (v.getColorInfluence sqrt x y).influence).foldr max 0
    ∧ 0 ≤ (strongestWave sqrt waves x y).1
    ∧ (∀ v ∈ waves, (v.getColorInfluence sqrt x y).influence
          ≤ (strongestWave sqrt waves x y).1)
    ∧ ((strongestWave sqrt waves x y).1 = 0
        ∨ ∃ v ∈ waves, (v.getColorInfluence sqrt x y).influence
            = (strongestWave sqrt waves x y).1)
    ∧ (0 < (strongestWave sqrt waves x y).1 →
        ∃ pre w post, waves = pre ++ w :: post
          ∧ (∀ v ∈ pre, (v.getColorInfluence sqrt x y).influence
                < (strongestWave sqrt waves x y).1)
          ∧ (w.getColorInfluence sqrt x y).influence = (strongestWave sqrt waves x y).1
          ∧ (strongestWave sqrt waves x y).2 = (w.getColorInfluence sqrt x y).color
          ∧ (strongestWave sqrt waves x y).2 = some w.colorRGB) := by
  obtain ⟨h0, hle, -, hfirst⟩ := strongestWave_spec sqrt waves x y
  have hex : (strongestWave sqrt waves x y).1 = 0
      ∨ ∃ v ∈ waves, (v.getColorInfluence sqrt x y).influence
          = (strongestWave sqrt waves x y).1 := by
    rcases eq_or_lt_of_le h0 with hz | hpos
    · exact Or.inl hz.symm
    · obtain ⟨pre, w, post, hl, -, hw, -⟩ := hfirst hpos
      refine Or.inr ⟨w, ?_, hw⟩
      rw [hl]
      simp
  have hmax : ∀ (l : List Wave) (m : ℚ), 0 ≤ m →
      (∀ v ∈ l, (v.getColorInfluence sqrt x y).influence ≤ m) →
      (m = 0 ∨ ∃ v ∈ l, (v.getColorInfluence sqrt x y).influence = m) →
      m = (l.map fun v => (v.getColorInfluence sqrt x y).influence).foldr max 0 := by
    intro l
    induction l with
    | nil =>
      intro m _ _ hm
      rcases hm with hm | ⟨v, hv, -⟩
      · simpa using hm
      · exact absurd hv (List.not_mem_nil v)
    | cons a rest ih =>
      intro m hm0 hmle hmex
      simp only [List.map_cons, List.foldr_cons]
      have hfold0 : ∀ (k : List Wave),
          0 ≤ (k.map fun v => (v.getColorInfluence sqrt x y).influence).foldr max 0 := by
        intro k
        induction k with
        | nil => simp
        | cons b k ihk =>
          simp only [List.map_cons, List.foldr_cons]
          exact le_max_of_le_right ihk
      have hfoldle : ∀ (k : List Wave), (∀ v ∈ k, (v.getColorInfluence sqrt x y).influence ≤ m) →
          (k.map fun v => (v.getColorInfluence sqrt x y).influence).foldr max 0 ≤ m := by
        intro k
        induction k with
        | nil => intro _; simpa using hm0
        | cons b k ihk =>
          intro hk
          simp only [List.map_cons, List.foldr_cons]
          exact max_le (hk b (List.mem_cons_self b k))
            (ihk fun v hv => hk v (List.mem_cons_of_mem b hv))
      have hfoldmem : ∀ (k : List Wave), ∀ v ∈ k, (v.getColorInfluence sqrt x y).influence
          ≤ (k.map fun v => (v.getColorInfluence sqrt x y).influence).foldr max 0 := by
        intro k
        induction k with
        | nil => intro v hv; exact absurd hv (List.not_mem_nil v)
        | cons b k ihk =>
          intro v hv
          simp only [List.map_cons, List.foldr_cons]
          rcases List.mem_cons.mp hv with hv | hv
          · rw [hv]; exact le_max_left _ _
          · exact le_max_of_le_right (ihk v hv)
      apply le_antisymm
      · rcases hmex with hz | ⟨v, hv, hvm⟩
        · rw [hz]
          exact le_max_of_le_right (hfold0 rest)
        · rw [← hvm]
          have := hfoldmem (a :: rest) v hv
          simpa only [List.map_cons, List.foldr_cons] using this
      · have := hfoldle (a :: rest) hmle
        simpa only [List.map_cons, List.foldr_cons] using this
  refine ⟨hmax waves _ h0 hle hex, h0, hle, hex, ?_⟩
  intro hpos
  obtain ⟨pre, w, post, hl, hpre, hw, hc⟩ := hfirst hpos
  refine ⟨pre, w, post, hl, hpre, hw, hc, ?_⟩
  rw [hc]
  exact Wave.color_of_influence_pos sqrt w x y (by rw [hw]; exact hpos)

/-- Witness for C6: two fresh primary waves at (100, 100), the first blue and
the second orange, both have influence 1 at (100, 100); the loop ends with
`maxWaveInfluence = 1`, not their sum 2, and the colour of the first one. -/
theorem strongestWave_is_first_maximum_witness :
    strongestWave Rat.sqrt
        [Wave.constructor 100 100 false 0 0, Wave.constructor 100 100 false 0 1] 100 100
      = (1, some ⟨0, 119, 255⟩)
    ∧ (1 : ℚ) = ([Wave.constructor 100 100 false 0 0, Wave.constructor 100 100 false 0 1].map
          fun v => (v.getColorInfluence Rat.sqrt 100 100).influence).foldr max 0
    ∧ ([Wave.constructor 100 100 false 0 0, Wave.constructor 100 100 false 0 1].map
          fun v => (v.getColorInfluence Rat.sqrt 100 100).influence).sum = 2 := by
  have hsum : ([Wave.constructor 100 100 false 0 0, Wave.constructor 100 100 false 0 1].map
      fun v => (v.getColorInfluence Rat.sqrt 100 100).influence).sum = 2 := by
    norm_num [Wave.getColorInfluence, Wave.constructor, Wave.dist, Wave.waveThickness]
  have h : strongestWave Rat.sqrt
      [Wave.constructor 100 100 false 0 0, Wave.constructor 100 100 false 0 1] 100 100
      = (1, some ⟨0, 119, 255⟩) := by
    norm_num [strongestWave, strongestStep, Wave.getColorInfluence, Wave.constructor,
      Wave.dist, Wave.waveThickness, pickColor, colors]
  have t := (strongestWave_is_first_maximum Rat.sqrt
      [Wave.constructor 100 100 false 0 0, Wave.constructor 100 100 false 0 1] 100 100).1
  rw [h] at t
  exact ⟨h, t, hsum⟩

/-- C7: in the dominance test, when `hoverInfluence` equals `maxWaveInfluence`
the accent is the hover orange (255, 122, 0) and `finalInfluence` is
`hoverInfluence`; the same holds whenever `maxWaveInfluence` is not strictly
greater than `hoverInfluence`.  The wave colour and `maxWaveInfluence` are used
exactly in the branch `maxWaveInfluence > hoverInfluence`.  This test is the
one applied to every cell. -/
theorem hover_wins_unless_wave_strictly_stronger (maxWaveInfluence : ℚ)
    (waveColor : Option RGB) (hover : ℚ) :
    (hover = maxWaveInfluence →
      dominant maxWaveInfluence waveColor hover = some (hover, ⟨255, 122, 0⟩))
    ∧ (¬ maxWaveInfluence > hover →
      dominant maxWaveInfluence waveColor hover = some (hover, ⟨255, 122, 0⟩))
    ∧ (maxWaveInfluence > hover →
      dominant maxWaveInfluence waveColor hover
        = waveColor.map fun c => (maxWaveInfluence, c))
    ∧ (∀ (sqrt : ℚ → ℚ) (pow : ℚ → ℚ → ℚ) (s : State) (x y : ℚ),
        cellAccent sqrt pow s x y
          = dominant (strongestWave sqrt s.waves x y).1 (strongestWave sqrt s.waves x y).2
              (hoverFactor sqrt pow s x y * s.glowAlpha)) := by
  refine ⟨?_, ?_, ?_, fun _ _ _ _ _ => rfl⟩
  · intro h
    unfold dominant
    rw [if_neg (by rw [h]; exact lt_irrefl _)]
    rfl
  · intro h
    unfold dominant
    rw [if_neg h]
    rfl
  · intro h
    unfold dominant
    rw [if_pos h]
    cases waveColor <;> rfl

/-- C8: for every integer shade `s` and every accent colour with integer
channels `(ra, ga, ba)`, the blend at `finalInfluence = 0` is exactly
`(s, s, s)` at alpha 0.35, and at `finalInfluence = 1` it is exactly
`(ra, ga, ba)` at alpha 1; the fill style of a cell is this blend of its shade
with the accent and influence chosen for it. -/
theorem blend_endpoints (s ra ga ba : ℤ) :
    blend s ⟨ra, ga, ba⟩ 0 = { r := s, g := s, b := s, a := 7 / 20 }
    ∧ blend s ⟨ra, ga, ba⟩ 1 = { r := ra, g := ga, b := ba, a := 1 }
    ∧ (∀ (sqrt : ℚ → ℚ) (pow : ℚ → ℚ → ℚ) (st : State) (cell : Cell) (x y fi : ℚ)
        (acc : RGB), cellAccent sqrt pow st x y = some (fi, acc) →
        cellFillStyle sqrt pow st cell x y = some (blend cell.shade acc fi)) := by
  refine ⟨?_, ?_, ?_⟩
  · unfold blend mathRound
    simp only [mul_zero, add_zero, floor_intCast_add_half]
  · unfold blend mathRound
    simp only [mul_one, add_sub_cancel, floor_intCast_add_half]
  · intro sqrt pow st cell x y fi acc h
    unfold cellFillStyle
    rw [h]
    rfl

/-- C9: for every container of `width` by `height` pixels, `setup()` picks cell
size 18 below 480 pixels of width, 20 from 480 up to but excluding 768, and 24
from 768 on (so 400 gives 18, 600 gives 20, 1000 gives 24), sets
`cols = ceil(width / cellSize)` and `rows = ceil(height / cellSize)`, and builds
a letter array of length exactly `rows * cols`; a zero-sized container gives
`cols = rows = 0` and an empty array. -/
theorem setup_grid_dimensions (s : State) (width height : ℕ)
    (draws : ℕ → Fin 3 × Fin 45) :
    (width < 480 → (setup s width height draws).matrixCellSize = 18)
    ∧ (480 ≤ width → width < 768 → (setup s width height draws).matrixCellSize = 20)
    ∧ (768 ≤ width → (setup s width height draws).matrixCellSize = 24)
    ∧ (setup s 400 height draws).matrixCellSize = 18
    ∧ (setup s 600 height draws).matrixCellSize = 20
    ∧ (setup s 1000 height draws).matrixCellSize = 24
    ∧ ((setup s width height draws).matrixCols : ℤ)
        = ⌈(width : ℚ) / (setup s width height draws).matrixCellSize⌉
    ∧ ((setup s width height draws).matrixRows : ℤ)
        = ⌈(height : ℚ) / (setup s width height draws).matrixCellSize⌉
    ∧ (setup s width height draws).matrixLetters.length
        = (setup s width height draws).matrixRows * (setup s width height draws).matrixCols
    ∧ (setup s 0 0 draws).matrixCols = 0
    ∧ (setup s 0 0 draws).matrixRows = 0
    ∧ (setup s 0 0 draws).matrixLetters = [] := by
  have hpos : (0 : ℚ) < (cellSizeFor width : ℚ) := by
    unfold cellSizeFor
    split_ifs <;> norm_num
  refine ⟨?_, ?_, ?_, ?_, ?_, ?_, ?_, ?_, ?_, ?_, ?_, ?_⟩
  · intro h
    simp [setup, cellSizeFor, h]
  · intro h1 h2
    simp [setup, cellSizeFor, not_lt.mpr h1, h2]
  · intro h
    have h1 : ¬ width < 480 := by omega
    have h2 : ¬ width < 768 := by omega
    simp [setup, cellSizeFor, h1, h2]
  · simp [setup, cellSizeFor]
  · simp [setup, cellSizeFor]
  · simp [setup, cellSizeFor]
  · show ((⌈(width : ℚ) / (cellSizeFor width : ℚ)⌉₊ : ℕ) : ℤ)
      = ⌈(width : ℚ) / (cellSizeFor width : ℚ)⌉
    exact Int.natCast_ceil_eq_ceil (div_nonneg (Nat.cast_nonneg _) (le_of_lt hpos))
  · show ((⌈(height : ℚ) / (cellSizeFor width : ℚ)⌉₊ : ℕ) : ℤ)
      = ⌈(height : ℚ) / (cellSizeFor width : ℚ)⌉
    exact Int.natCast_ceil_eq_ceil (div_nonneg (Nat.cast_nonneg _) (le_of_lt hpos))
  · simp [setup]
  · simp [setup]
  · simp [setup]
  · simp [setup]

/-- The mouse half of the out-of-bounds rule: `mousedown` and the drag
`mousemove` leave the whole state unchanged when the container-relative
coordinates fail the bounds test. -/
theorem mouse_handlers_ignore_outside (s : State) (rect : Rect) (e : Pointer) (now : ℚ)
    (p0 p1 p2 : Fin 4)
    (h : withinBounds rect (e.clientX - rect.left) (e.clientY - rect.top) = false) :
    onMouseDown s rect e now p0 p1 p2 = s
    ∧ onMouseMoveDrag s rect e now p0 p1 p2 = s := by
  constructor
  · unfold onMouseDown
    simp only [h, Bool.false_eq_true, if_false]
  · unfold onMouseMoveDrag
    simp only [h, Bool.false_eq_true, if_false, ite_self]

/-- C10, evaluated: with a container of 300 by 200 pixels at the origin and a
touch at client position (150, 500), below the container, the bounds test of
the mouse handlers fails and `mousedown` at that position changes nothing,
but `touchstart` from the initial state spawns the three waves at
(150, 500), and so does the drag `touchmove` 100 ms after a drag began. -/
theorem touch_handlers_spawn_outside_container :
    withinBounds ⟨0, 0, 300, 200⟩ (150 - 0) (500 - 0) = false
    ∧ onMouseDown initialState ⟨0, 0, 300, 200⟩ ⟨150, 500⟩ 0 0 0 0 = initialState
    ∧ initialState.waves = []
    ∧ (onTouchStart initialState ⟨0, 0, 300, 200⟩ [⟨150, 500⟩] 0 0 0 0).waves
        = [Wave.constructor 150 500 false 0 0, Wave.constructor 150 500 true 10 0,
            Wave.constructor 150 500 true 20 0]
    ∧ (onTouchMoveDrag { initialState with isDragging := true } ⟨0, 0, 300, 200⟩
          [⟨150, 500⟩] 100 0 0 0).waves
        = [Wave.constructor 150 500 false 0 0, Wave.constructor 150 500 true 10 0,
            Wave.constructor 150 500 true 20 0] := by
  refine ⟨?_, ?_, rfl, ?_, ?_⟩
  · norm_num [withinBounds]
  · norm_num [onMouseDown, withinBounds]
  · simp [onTouchStart, createWavesAt, pushGroup, shiftWhileOver, MAX_WAVES, initialState]
  · simp [onTouchMoveDrag, createWavesAt, pushGroup, shiftWhileOver, MAX_WAVES,
      initialState, WAVE_INTERVAL]

/-- C11 as stated fails: after a `mousemove` to (150, 80) in a container at the
origin, `mouseup` and `touchend` clear the drag flag but leave the pointer
position at (150, 80), not at the sentinel (-9999, -9999). -/
theorem mouseup_touchend_keep_pointer :
    (updateMouse initialState ⟨0, 0, 300, 200⟩ 150 80).mousePosX = 150
    ∧ (updateMouse initialState ⟨0, 0, 300, 200⟩ 150 80).mousePosY = 80
    ∧ (onMouseUp (updateMouse initialState ⟨0, 0, 300, 200⟩ 150 80)).mousePosX = 150
    ∧ (onMouseUp (updateMouse initialState ⟨0, 0, 300, 200⟩ 150 80)).mousePosY = 80
    ∧ (onTouchEnd (updateMouse initialState ⟨0, 0, 300, 200⟩ 150 80)).mousePosX = 150
    ∧ (onTouchEnd (updateMouse initialState ⟨0, 0, 300, 200⟩ 150 80)).mousePosY = 80
    ∧ ¬ ((onMouseUp (updateMouse initialState ⟨0, 0, 300, 200⟩ 150 80)).isDragging = false
          ∧ (onMouseUp (updateMouse initialState ⟨0, 0, 300, 200⟩ 150 80)).mousePosX = -9999
          ∧ (onMouseUp (updateMouse initialState ⟨0, 0, 300, 200⟩ 150 80)).mousePosY = -9999)
    ∧ ¬ ((onTouchEnd (updateMouse initialState ⟨0, 0, 300, 200⟩ 150 80)).isDragging = false
          ∧ (onTouchEnd (updateMouse initialState ⟨0, 0, 300, 200⟩ 150 80)).mousePosX = -9999
          ∧ (onTouchEnd (updateMouse initialState ⟨0, 0, 300, 200⟩ 150 80)).mousePosY
              = -9999) := by
  have hx : (updateMouse initialState ⟨0, 0, 300, 200⟩ 150 80).mousePosX = 150 := by
    norm_num [updateMouse]
  have hy : (updateMouse initialState ⟨0, 0, 300, 200⟩ 150 80).mousePosY = 80 := by
    norm_num [updateMouse]
  refine ⟨hx, hy, hx, hy, hx, hy, ?_, ?_⟩
  · rintro ⟨-, h, -⟩
    have h2 : (updateMouse initialState ⟨0, 0, 300, 200⟩ 150 80).mousePosX = -9999 := h
    rw [hx] at h2
    norm_num at h2
  · rintro ⟨-, h, -⟩
    have h2 : (updateMouse initialState ⟨0, 0, 300, 200⟩ 150 80).mousePosX = -9999 := h
    rw [hx] at h2
    norm_num at h2

/-- C11, amended: for every state, each of the mouse-leave, mouse-up and
touch-end handlers clears the drag flag (`isDragging = false`), and the
mouse-leave handlers also set the pointer position to the far-away sentinel
(-9999, -9999). -/
theorem release_handlers_clear_drag_flag (s : State) :
    (onMouseLeave s).isDragging = false
    ∧ (onMouseUp s).isDragging = false
    ∧ (onTouchEnd s).isDragging = false
    ∧ (onMouseLeave s).mousePosX = -9999
    ∧ (onMouseLeave s).mousePosY = -9999 :=
  ⟨rfl, rfl, rfl, rfl, rfl⟩

/-- C12: starting from an empty wave list, `createWavesAt(100, 100)` gives the
primary wave and the two secondaries.  With no tick, at (100, 100) the primary
has influence 1 and both secondaries have influence 0.  After 67 ticks of
`waves.filter(wave => wave.update())` all three waves are still in the list;
the primary has radius 201 and influence 0 at (100, 100); the first secondary
(delay 10) has radius 114, influence 0 at (100, 100), and its influence at a
point is non-zero exactly when the distance `d` of the point from (100, 100)
satisfies `|d - 114| < 30`.  `Math.sqrt(0)` is 0. -/
theorem spawn_scenario_at_100_100 (sqrt : ℚ → ℚ) (hsqrt : sqrt 0 = 0)
    (p0 p1 p2 : Fin 4) :
    createWavesAt [] 100 100 p0 p1 p2
      = [Wave.constructor 100 100 false 0 p0, Wave.constructor 100 100 true 10 p1,
          Wave.constructor 100 100 true 20 p2]
    ∧ ((Wave.constructor 100 100 false 0 p0).getColorInfluence sqrt 100 100).influence = 1
    ∧ ((Wave.constructor 100 100 true 10 p1).getColorInfluence sqrt 100 100).influence = 0
    ∧ ((Wave.constructor 100 100 true 20 p2).getColorInfluence sqrt 100 100).influence = 0
    ∧ tickWaves^[67] (createWavesAt [] 100 100 p0 p1 p2)
      = [ { x := 100, y := 100, radius := 201, isSecondary := false, delayFrames := 0,
            currentDelay := 0, maxRadius := 300, speed := 3, opacity := 33 / 100,
            lineWidth := 99 / 100, colorRGB := pickColor p0 },
          { x := 100, y := 100, radius := 114, isSecondary := true, delayFrames := 10,
            currentDelay := 0, maxRadius := 200, speed := 2, opacity := 43 / 100,
            lineWidth := 129 / 100, colorRGB := pickColor p1 },
          { x := 100, y := 100, radius := 94, isSecondary := true, delayFrames := 20,
            currentDelay := 0, maxRadius := 200, speed := 2, opacity := 53 / 100,
            lineWidth := 159 / 100, colorRGB := pickColor p2 } ]
    ∧ (Wave.getColorInfluence sqrt
          { x := 100, y := 100, radius := 201, isSecondary := false, delayFrames := 0,
            currentDelay := 0, maxRadius := 300, speed := 3, opacity := 33 / 100,
            lineWidth := 99 / 100, colorRGB := pickColor p0 } 100 100).influence = 0
    ∧ (Wave.getColorInfluence sqrt
          { x := 100, y := 100, radius := 114, isSecondary := true, delayFrames := 10,
            currentDelay := 0, maxRadius := 200, speed := 2, opacity := 43 / 100,
            lineWidth := 129 / 100, colorRGB := pickColor p1 } 100 100).influence = 0
    ∧ (∀ x y : ℚ,
        (Wave.getColorInfluence sqrt
          { x := 100, y := 100, radius := 114, isSecondary := true, delayFrames := 10,
            currentDelay := 0, maxRadius := 200, speed := 2, opacity := 43 / 100,
            lineWidth := 129 / 100, colorRGB := pickColor p1 } x y).influence ≠ 0
        ↔ |sqrt ((x - 100) * (x - 100) + (y - 100) * (y - 100)) - 114| < 30) := by
  refine ⟨createWavesAt_nil 100 100 p0 p1 p2, ?_, ?_, ?_, ?_, ?_, ?_, ?_⟩
  · norm_num [Wave.getColorInfluence, Wave.constructor, Wave.dist, Wave.waveThickness, hsqrt]
  · norm_num [Wave.getColorInfluence, Wave.constructor]
  · norm_num [Wave.getColorInfluence, Wave.constructor]
  · rw [tickWaves_group 100 100 p0 p1 p2 67 (by norm_num)]
    norm_num [Wave.afterFrames]
  · norm_num [Wave.getColorInfluence, Wave.dist, Wave.waveThickness, hsqrt]
  · norm_num [Wave.getColorInfluence, Wave.dist, Wave.waveThickness, hsqrt]
  · intro x y
    by_cases hb : |sqrt ((x - 100) * (x - 100) + (y - 100) * (y - 100)) - 114| < 30
    · have hne : (1 - |sqrt ((x - 100) * (x - 100) + (y - 100) * (y - 100)) - 114| / 30)
          * (43 / 100 : ℚ) ≠ 0 := by
        apply ne_of_gt
        apply mul_pos
        · have : |sqrt ((x - 100) * (x - 100) + (y - 100) * (y - 100)) - 114| / 30 < 1 := by
            rw [div_lt_one (by norm_num)]
            exact hb
          linarith
        · norm_num
      simp only [Wave.getColorInfluence, Wave.dist, Wave.waveThickness, lt_irrefl, if_false,
        if_true, hb, iff_true]
      exact hne
    · simp only [Wave.getColorInfluence, Wave.dist, Wave.waveThickness, lt_irrefl, if_false,
        if_true, hb, iff_false, not_not]

/-- Witness for C12: `Rat.sqrt` satisfies `sqrt 0 = 0`, so with blue, orange and
yellow drawn the primary wave has influence 1 at (100, 100) and, 67 ticks
later, the first secondary wave has non-zero influence at (214, 100), which
lies at distance 114 from (100, 100). -/
theorem spawn_scenario_at_100_100_witness :
    Rat.sqrt 0 = 0
    ∧ ((Wave.constructor 100 100 false 0 0).getColorInfluence Rat.sqrt 100 100).influence = 1
    ∧ (Wave.getColorInfluence Rat.sqrt
          { x := 100, y := 100, radius := 114, isSecondary := true, delayFrames := 10,
            currentDelay := 0, maxRadius := 200, speed := 2, opacity := 43 / 100,
            lineWidth := 129 / 100, colorRGB := pickColor 1 } 214 100).influence ≠ 0 := by
  have h0 : Rat.sqrt 0 = 0 := by norm_num
  have t := spawn_scenario_at_100_100 Rat.sqrt h0 0 1 2
  refine ⟨h0, t.2.1, (t.2.2.2.2.2.2.2 214 100).mpr ?_⟩
  norm_num

/-- C13: for every wave list, whatever the state of its waves, every cell
position `(x, y)` and every `hoverInfluence ≥ 0`: when the wave branch
`maxWaveInfluence > hoverInfluence` is taken, `waveColor` is not `null` but the
`colorRGB` of a wave of the list, so the dominance test reads its channels
without error and the cell is painted with that colour. -/
theorem waveColor_nonnull_in_wave_branch (sqrt : ℚ → ℚ) (waves : List Wave) (x y : ℚ)
    (hover : ℚ) (hh : 0 ≤ hover)
    (hdom : (strongestWave sqrt waves x y).1 > hover) :
    ∃ w ∈ waves,
      (strongestWave sqrt waves x y).2 = some w.colorRGB
      ∧ dominant (strongestWave sqrt waves x y).1 (strongestWave sqrt waves x y).2 hover
          = some ((strongestWave sqrt waves x y).1, w.colorRGB)
      ∧ (∀ (pow : ℚ → ℚ → ℚ) (s : State) (cell : Cell), s.waves = waves →
          hoverInfluence sqrt pow s x y = hover →
          cellFillStyle sqrt pow s cell x y
            = some (blend cell.shade w.colorRGB (strongestWave sqrt waves x y).1)) := by
  have hpos : 0 < (strongestWave sqrt waves x y).1 := lt_of_le_of_lt hh hdom
  obtain ⟨-, -, -, hfirst⟩ := strongestWave_spec sqrt waves x y
  obtain ⟨pre, w, post, hl, -, hw, hc⟩ := hfirst hpos
  have hcol : (strongestWave sqrt waves x y).2 = some w.colorRGB := by
    rw [hc]
    exact Wave.color_of_influence_pos sqrt w x y (by rw [hw]; exact hpos)
  have hmem : w ∈ waves := by
    rw [hl]
    simp
  have hd : dominant (strongestWave sqrt waves x y).1 (strongestWave sqrt waves x y).2 hover
      = some ((strongestWave sqrt waves x y).1, w.colorRGB) := by
    unfold dominant
    rw [if_pos hdom, hcol]
  refine ⟨w, hmem, hcol, hd, ?_⟩
  intro pow s cell hs hhov
  unfold cellFillStyle cellAccent
  rw [hs, hhov, hd]
  rfl

/-- Witness for C13: a fresh primary wave at (100, 100) drawn blue has influence
1 at its centre, above a hover influence of 1/2; the wave branch is taken and
`waveColor` is the blue of that wave. -/
theorem waveColor_nonnull_in_wave_branch_witness :
    (0 : ℚ) ≤ 1 / 2
    ∧ (strongestWave Rat.sqrt [Wave.constructor 100 100 false 0 0] 100 100).1 > 1 / 2
    ∧ ∃ w ∈ [Wave.constructor 100 100 false 0 0],
        (strongestWave Rat.sqrt [Wave.constructor 100 100 false 0 0] 100 100).2
          = some w.colorRGB := by
  have h1 : (0 : ℚ) ≤ 1 / 2 := by norm_num
  have h2 : (strongestWave Rat.sqrt [Wave.constructor 100 100 false 0 0] 100 100).1
      > 1 / 2 := by
    norm_num [strongestWave, strongestStep, Wave.getColorInfluence, Wave.constructor,
      Wave.dist, Wave.waveThickness]
  obtain ⟨w, hw, hc, -⟩ := waveColor_nonnull_in_wave_branch Rat.sqrt
    [Wave.constructor 100 100 false 0 0] 100 100 (1 / 2) h1 h2
  exact ⟨h1, h2, w, hw, hc⟩

/-- The premise `hoverInfluence ≥ 0` of C13 is needed: with no waves the loop
ends at `(0, null)`, and a negative hover influence would enter the wave branch
and read the channels of `null`. -/
theorem dominant_null_when_hover_negative :
    strongestWave Rat.sqrt [] 0 0 = (0, none)
    ∧ dominant (strongestWave Rat.sqrt [] 0 0).1 (strongestWave Rat.sqrt [] 0 0).2 (-1)
        = none := by
  have h : strongestWave Rat.sqrt [] 0 0 = (0, none) := rfl
  refine ⟨h, ?_⟩
  rw [h]
  unfold dominant
  rw [if_pos (by norm_num)]

end MatrixBackground
